import Mathlib

/-!
Shallow embedding of the animation / character-motion core of the
`nut-wars` repository: `src/animation.rs`, `src/char_action.rs`,
`src/game_state.rs`, and the per-tick update loop of `src/main.rs`.

Modelling conventions: `f32` values are modelled as exact rationals
(`ℚ`), `i32` as `ℤ`, `usize`/`u32` as `ℕ`.  Mutating Rust methods become
pure state-transformer functions.  The thread-local random draw in
`move_down`/`reset_y` (`rand::thread_rng().gen_range(0..1025)`) is made
explicit as a natural-number parameter `r` (the drawn value, which the
Rust API guarantees lies in `0..=1024`).
-/

/-- An `[f32; 4]` rectangle.  Index `0` is `x`, `1` is `y`, `2` is the
(signed) width `w`, `3` is the height `h`. -/
structure Rect4 where
  x : ℚ
  y : ℚ
  w : ℚ
  h : ℚ
deriving DecidableEq

/-- `Animation` from `src/animation.rs`: `states` are sprite-sheet
positions, `frame_counter` counts ticks on the current state, `rate` is
how many ticks must pass before advancing, `state_number` is the index
of the current frame. -/
structure Animation where
  states : List Rect4
  frame_counter : ℤ
  rate : ℤ
  state_number : ℕ
deriving DecidableEq

/-- `Animation::tick` (`src/animation.rs` lines 13-26): increment
`frame_counter`; once it exceeds `rate`, advance `state_number`
(resetting to `0` as soon as it would reach `states.len() - 1`) and
reset `frame_counter` to `0`.  The source's sequential mutations are
flattened into a single conditional update. -/
def Animation.tick (a : Animation) : Animation :=
  if a.frame_counter + 1 > a.rate then
    { a with
      state_number :=
        if a.state_number + 1 ≥ a.states.length - 1 then 0 else a.state_number + 1,
      frame_counter := 0 }
  else
    { a with frame_counter := a.frame_counter + 1 }

/-- `n` successive calls of `Animation::tick`. -/
def Animation.tickN (a : Animation) : ℕ → Animation
  | 0 => a
  | n + 1 => a.tick.tickN n

/-- The loop body of `Animation::stop` (`while self.state_number != 0 {
self.tick(); }`) as a fuelled iteration: run `tick` until either
`state_number = 0` or the fuel runs out. -/
def Animation.stopFuel (a : Animation) : ℕ → Animation
  | 0 => a
  | n + 1 => if a.state_number = 0 then a else a.tick.stopFuel n

/-- Number of index advances `Animation::stop`'s loop still has to make
from index `i` in a frame list of length `L` before the index returns to
`0` (used only as a fuel bound for the `stop` loop). -/
def advStepsFrom (L i : ℕ) : ℕ :=
  if i + 1 ≥ L - 1 then 1 else L - 1 - i

/-- Exact number of `tick` calls performed by `Animation::stop`'s while
loop (proved below: it strictly decreases along `tick` while
`state_number ≠ 0`, so it is a sufficient fuel bound). -/
def Animation.stopTicks (a : Animation) : ℕ :=
  if a.state_number = 0 then 0
  else
    (a.rate - a.frame_counter).toNat + 1 +
      (advStepsFrom a.states.length a.state_number - 1) * (a.rate.toNat + 1)

/-- `Animation::stop` (`src/animation.rs` lines 27-31): repeatedly
`tick` until `state_number == 0`.  The while loop is embedded with the
fuel `stopTicks`; `stopFuel_state_number_zero` below proves this fuel
always suffices, i.e. the source loop terminates with this result. -/
def Animation.stop (a : Animation) : Animation :=
  a.stopFuel a.stopTicks

/-- `Animation::get_current_state` (`src/animation.rs` lines 32-34):
returns `states[state_number]`.  The partial indexing is embedded as an
`Option`; `none` corresponds to the source's out-of-range panic. -/
def Animation.get_current_state (a : Animation) : Option Rect4 :=
  a.states[a.state_number]?

/-- `Char_action` from `src/char_action.rs` (field-for-field identical
to the private `Character` struct in `src/main.rs`): a screen-space
rectangle, an owned animation, a movement speed, a facing flag and the
index of the shared sprite slot this actor controls.  All the method
embeddings below are shared between `Char_action` and `Character`,
whose Rust method bodies are textually identical. -/
structure Char_action where
  screen_region : Rect4
  animation : Animation
  speed : ℚ
  facing_right : Bool
  sprites_index : ℕ
deriving DecidableEq

/-- `Char_action::walk` / `Character::walk`: add `speed` to
`screen_region[0]` when facing right, subtract it otherwise. -/
def Char_action.walk (c : Char_action) : Char_action :=
  if c.facing_right then
    { c with screen_region := { c.screen_region with x := c.screen_region.x + c.speed } }
  else
    { c with screen_region := { c.screen_region with x := c.screen_region.x - c.speed } }

/-- `n` successive calls of `walk`. -/
def Char_action.walkN (c : Char_action) : ℕ → Char_action
  | 0 => c
  | n + 1 => c.walk.walkN n

/-- `Char_action::face_left` / `Character::face_left`: set
`facing_right = false`; if `screen_region[2] < 0.0`, multiply the width
by `-1.0` and shift `x` left by `60.0`. -/
def Char_action.face_left (c : Char_action) : Char_action :=
  if c.screen_region.w < 0 then
    { c with
      facing_right := false,
      screen_region :=
        { c.screen_region with
          w := c.screen_region.w * (-1), x := c.screen_region.x - 60 } }
  else
    { c with facing_right := false }

/-- `Char_action::face_right` / `Character::face_right`: set
`facing_right = true`; if `screen_region[2] > 0.0`, multiply the width
by `-1.0` and shift `x` right by `60.0`. -/
def Char_action.face_right (c : Char_action) : Char_action :=
  if c.screen_region.w > 0 then
    { c with
      facing_right := true,
      screen_region :=
        { c.screen_region with
          w := c.screen_region.w * (-1), x := c.screen_region.x + 60 } }
  else
    { c with facing_right := true }

/-- `Char_action::move_down` / `Character::move_down`: subtract `speed`
from `screen_region[1]`; if the result is `≤ 0`, respawn at `y = 768`
with `x` set to the random draw `r` (from `gen_range(0..1025)`).  The
source first stores `y - speed` and then overwrites it in the respawn
branch; the two sequential assignments are flattened into one
conditional update. -/
def Char_action.move_down (r : ℕ) (c : Char_action) : Char_action :=
  if c.screen_region.y - c.speed ≤ 0 then
    { c with screen_region := { c.screen_region with y := 768, x := (r : ℚ) } }
  else
    { c with screen_region := { c.screen_region with y := c.screen_region.y - c.speed } }

/-- `Char_action::reset_y` / `Character::reset_y`: unconditionally set
`y = 768` and `x` to the random draw `r` (from `gen_range(0..1025)`). -/
def Char_action.reset_y (r : ℕ) (c : Char_action) : Char_action :=
  { c with screen_region := { c.screen_region with y := 768, x := (r : ℚ) } }

/-- `GameState` from `src/game_state.rs`. -/
structure GameState where
  chars_typed : ℕ
  score : ℕ
  score_changing : Bool
deriving DecidableEq

/-- `init_game_state` from `src/game_state.rs`. -/
def init_game_state : GameState :=
  { chars_typed := 0, score := 0, score_changing := false }

/-- The mutable state threaded through the `MainEventsCleared` arm of
the event loop in `src/main.rs`: the two actors, the game state and the
local `nut_count` counter.  (The shared `sprites` array is omitted: the
loop copies `squirrel.screen_region` / `acorn.screen_region` into it
right before the collision check, so the check reads exactly the actor
fields modelled here.) -/
structure World where
  squirrel : Char_action
  acorn : Char_action
  gs : GameState
  nut_count : ℤ
deriving DecidableEq

/-- The per-tick external inputs of the `MainEventsCleared` arm: the
key queries `input.is_key_down(Left)`, `input.is_key_down(Right)`,
`input.is_key_up(Left)`, `input.is_key_up(Right)`, and the random draws
consumed by `move_down` and by `reset_y` this tick. -/
structure TickInput where
  left_down : Bool
  right_down : Bool
  left_up : Bool
  right_up : Bool
  rand_move : ℕ
  rand_reset : ℕ
deriving DecidableEq

/-- The movement half of the `MainEventsCleared` arm (`src/main.rs`
lines 694-718): the acorn descends every tick; the squirrel is driven
by the input branches (left held: `face_left`, `walk`, animation
`tick`; else right held: `face_right`, `walk`, `tick`; else if left or
right was released: animation `stop`). -/
def movePhase (inp : TickInput) (w : World) : World :=
  let acorn := w.acorn.move_down inp.rand_move
  let squirrel :=
    if inp.left_down then
      let s := w.squirrel.face_left.walk
      { s with animation := s.animation.tick }
    else if inp.right_down then
      let s := w.squirrel.face_right.walk
      { s with animation := s.animation.tick }
    else if inp.left_up || inp.right_up then
      { w.squirrel with animation := w.squirrel.animation.stop }
    else
      w.squirrel
  { w with squirrel := squirrel, acorn := acorn }

/-- The collision condition of `src/main.rs` lines 725-743: the
squirrel's box is first normalized when `facing_right` (origin moved to
`x + width`, width negated), then the axis-aligned overlap test of
lines 742-743 is evaluated against the acorn's box. -/
def collides (w : World) : Prop :=
  let ax := w.acorn.screen_region.x
  let ay := w.acorn.screen_region.y
  let aw := w.acorn.screen_region.w
  let ah := w.acorn.screen_region.h
  let sx :=
    if w.squirrel.facing_right then w.squirrel.screen_region.x + w.squirrel.screen_region.w
    else w.squirrel.screen_region.x
  let sw :=
    if w.squirrel.facing_right then w.squirrel.screen_region.w * (-1)
    else w.squirrel.screen_region.w
  let sy := w.squirrel.screen_region.y
  let sh := w.squirrel.screen_region.h
  ax + aw > sx ∧ ax < sx + sw ∧ ay - ah < sy ∧ ay > sy - sh

instance (w : World) : Decidable (collides w) := by
  unfold collides
  infer_instance

/-- The collision/scoring half of the `MainEventsCleared` arm
(`src/main.rs` lines 741-758): on overlap, bump `nut_count`, increase
the acorn's speed by `0.1`, recycle the acorn via `reset_y`, and — only
when `score_changing` is still false — increment `score` and set
`score_changing`; with no overlap, clear `score_changing`. -/
def collidePhase (r : ℕ) (w : World) : World :=
  if collides w then
    { w with
      nut_count := w.nut_count + 1,
      acorn := Char_action.reset_y r { w.acorn with speed := w.acorn.speed + 1 / 10 },
      gs :=
        if !w.gs.score_changing then
          { w.gs with score := w.gs.score + 1, score_changing := true }
        else
          w.gs }
  else
    { w with gs := { w.gs with score_changing := false } }

/-- One full simulation tick of the `MainEventsCleared` arm: movement
and input handling, then the collision/scoring check on the updated
positions. -/
def mainStep (inp : TickInput) (w : World) : World :=
  collidePhase inp.rand_reset (movePhase inp w)

/-- A whole sequence of simulation ticks. -/
def runSteps (inps : List TickInput) (w : World) : World :=
  inps.foldl (fun w inp => mainStep inp w) w

/-- The actor operations exposed by `Char_action` / `Character`
(movement, facing and respawn), used to quantify over arbitrary
sequences of subsequent calls.  The two random-draw operations carry
their drawn value. -/
inductive ActorOp where
  | opWalk : ActorOp
  | opFaceLeft : ActorOp
  | opFaceRight : ActorOp
  | opMoveDown : ℕ → ActorOp
  | opResetY : ℕ → ActorOp
deriving DecidableEq

/-- Interpretation of one actor operation. -/
def applyOp : ActorOp → Char_action → Char_action
  | ActorOp.opWalk, c => c.walk
  | ActorOp.opFaceLeft, c => c.face_left
  | ActorOp.opFaceRight, c => c.face_right
  | ActorOp.opMoveDown r, c => c.move_down r
  | ActorOp.opResetY r, c => c.reset_y r

/-- Interpretation of a sequence of actor operations. -/
def applyOps (ops : List ActorOp) (c : Char_action) : Char_action :=
  ops.foldl (fun c op => applyOp op c) c

/-- The facing/width-sign correspondence of the flip convention: the
actor faces right exactly when its stored width is negative (the sprite
is mirrored), and the width is nonzero. -/
def widthInv (c : Char_action) : Prop :=
  (c.facing_right = true ↔ c.screen_region.w < 0) ∧ c.screen_region.w ≠ 0

instance (c : Char_action) : Decidable (widthInv c) := by
  unfold widthInv
  infer_instance

/-! Helper lemmas about `Animation.tick` and the `stop` loop. -/

/-- The advancing branch of `tick`. -/
lemma Animation.tick_adv (a : Animation) (h : a.frame_counter + 1 > a.rate) :
    a.tick =
      { a with
        state_number :=
          if a.state_number + 1 ≥ a.states.length - 1 then 0 else a.state_number + 1,
        frame_counter := 0 } := by
  rw [Animation.tick, if_pos h]

/-- The non-advancing branch of `tick`. -/
lemma Animation.tick_noadv (a : Animation) (h : ¬ a.frame_counter + 1 > a.rate) :
    a.tick = { a with frame_counter := a.frame_counter + 1 } := by
  rw [Animation.tick, if_neg h]

/-- `tick` never changes the frame list. -/
lemma Animation.tick_states (a : Animation) : a.tick.states = a.states := by
  rw [Animation.tick]
  split <;> rfl

/-- `tick` never changes the rate. -/
lemma Animation.tick_rate (a : Animation) : a.tick.rate = a.rate := by
  rw [Animation.tick]
  split <;> rfl

/-- `tick` keeps the frame index below the length of a non-empty frame
list. -/
lemma Animation.tick_state_number_lt (a : Animation) (hL : 0 < a.states.length)
    (hi : a.state_number < a.states.length) :
    a.tick.state_number < a.states.length := by
  rw [Animation.tick]
  split
  · simp only
    split <;> omega
  · simpa using hi

/-- The fuel bound `stopTicks` strictly decreases along `tick` while the
loop guard `state_number ≠ 0` holds. -/
lemma Animation.stopTicks_tick_lt (a : Animation) (h : a.state_number ≠ 0) :
    a.tick.stopTicks < a.stopTicks := by
  by_cases hadv : a.frame_counter + 1 > a.rate
  · rw [Animation.tick_adv a hadv]
    by_cases hw : a.state_number + 1 ≥ a.states.length - 1
    · rw [if_pos hw]
      have hzero :
          ({ a with state_number := 0, frame_counter := 0 } : Animation).stopTicks = 0 := by
        unfold Animation.stopTicks
        simp
      rw [hzero]
      unfold Animation.stopTicks
      rw [if_neg h]
      omega
    · rw [if_neg hw]
      unfold Animation.stopTicks advStepsFrom
      simp only [if_neg h, if_neg (by omega : ¬ a.state_number + 1 = 0), if_neg hw]
      have hc : (a.rate - a.frame_counter).toNat = 0 := by omega
      rw [hc]
      by_cases hw2 : a.state_number + 1 + 1 ≥ a.states.length - 1
      · rw [if_pos hw2]
        have hA : a.states.length - 1 - a.state_number - 1 = 1 := by omega
        rw [hA, one_mul]
        omega
      · rw [if_neg hw2]
        have hA : a.states.length - 1 - (a.state_number + 1) - 1 + 1 =
            a.states.length - 1 - a.state_number - 1 := by omega
        calc (a.rate - 0).toNat + 1 +
              (a.states.length - 1 - (a.state_number + 1) - 1) * (a.rate.toNat + 1)
            = (a.states.length - 1 - (a.state_number + 1) - 1 + 1) * (a.rate.toNat + 1) := by
              rw [Nat.succ_mul]; omega
          _ = (a.states.length - 1 - a.state_number - 1) * (a.rate.toNat + 1) := by rw [hA]
          _ < 0 + 1 + (a.states.length - 1 - a.state_number - 1) * (a.rate.toNat + 1) := by
              omega
  · rw [Animation.tick_noadv a hadv]
    unfold Animation.stopTicks advStepsFrom
    simp only [if_neg h]
    have hc : (a.rate - (a.frame_counter + 1)).toNat < (a.rate - a.frame_counter).toNat := by
      omega
    omega

/-- With the guard already false, any amount of fuel leaves the loop
state unchanged. -/
lemma Animation.stopFuel_of_zero (a : Animation) (h : a.state_number = 0) :
    ∀ n, a.stopFuel n = a
  | 0 => rfl
  | n + 1 => by rw [Animation.stopFuel, if_pos h]

/-- Any fuel at least `stopTicks` drives the loop to `state_number = 0`:
the source's `while` loop terminates. -/
lemma Animation.stopFuel_state_number_zero :
    ∀ (n : ℕ) (a : Animation), a.stopTicks ≤ n → (a.stopFuel n).state_number = 0 := by
  intro n
  induction n with
  | zero =>
    intro a ha
    have h0 : a.state_number = 0 := by
      by_contra h
      have := a.stopTicks
      unfold Animation.stopTicks at ha
      rw [if_neg h] at ha
      omega
    simpa [Animation.stopFuel] using h0
  | succ n ih =>
    intro a ha
    by_cases h : a.state_number = 0
    · rw [Animation.stopFuel, if_pos h]
      exact h
    · rw [Animation.stopFuel, if_neg h]
      exact ih a.tick (by have := a.stopTicks_tick_lt h; omega)

/-- The loop result does not depend on the fuel, as long as the fuel
suffices. -/
lemma Animation.stopFuel_congr :
    ∀ (n m : ℕ) (a : Animation), a.stopTicks ≤ n → a.stopTicks ≤ m →
      a.stopFuel n = a.stopFuel m := by
  intro n
  induction n with
  | zero =>
    intro m a hn hm
    have h0 : a.state_number = 0 := by
      by_contra h
      unfold Animation.stopTicks at hn
      rw [if_neg h] at hn
      omega
    rw [Animation.stopFuel_of_zero a h0, Animation.stopFuel_of_zero a h0]
  | succ n ih =>
    intro m a hn hm
    by_cases h : a.state_number = 0
    · rw [Animation.stopFuel_of_zero a h, Animation.stopFuel_of_zero a h]
    · have h1 : 1 ≤ a.stopTicks := by
        unfold Animation.stopTicks
        rw [if_neg h]
        omega
      obtain ⟨m', rfl⟩ : ∃ m', m = m' + 1 := ⟨m - 1, by omega⟩
      rw [Animation.stopFuel, Animation.stopFuel, if_neg h, if_neg h]
      exact ih m' a.tick (by have := a.stopTicks_tick_lt h; omega)
        (by have := a.stopTicks_tick_lt h; omega)

/-- `stop` always ends with `state_number = 0`. -/
lemma Animation.stop_state_number (a : Animation) : a.stop.state_number = 0 :=
  Animation.stopFuel_state_number_zero a.stopTicks a le_rfl

/-- The `stop` loop never changes the frame list. -/
lemma Animation.stopFuel_states :
    ∀ (n : ℕ) (a : Animation), (a.stopFuel n).states = a.states := by
  intro n
  induction n with
  | zero => intro a; rfl
  | succ n ih =>
    intro a
    rw [Animation.stopFuel]
    split
    · rfl
    · rw [ih a.tick, Animation.tick_states]

/-- `stop` never changes the frame list. -/
lemma Animation.stop_states (a : Animation) : a.stop.states = a.states :=
  Animation.stopFuel_states a.stopTicks a

/-- `tickN` splits over addition of tick counts. -/
lemma Animation.tickN_add : ∀ (m n : ℕ) (a : Animation),
    a.tickN (m + n) = (a.tickN m).tickN n := by
  intro m
  induction m with
  | zero => intro n a; rw [Nat.zero_add]; rfl
  | succ m ih =>
    intro n a
    have hmn : m + 1 + n = m + n + 1 := by omega
    rw [hmn]
    show a.tick.tickN (m + n) = _
    rw [ih n a.tick]
    rfl

/-- As long as the counter stays within `rate`, `k` ticks only add `k`
to the counter. -/
lemma Animation.tickN_noadv : ∀ (k : ℕ) (a : Animation),
    a.frame_counter + (k : ℤ) ≤ a.rate →
    a.tickN k = { a with frame_counter := a.frame_counter + (k : ℤ) } := by
  intro k
  induction k with
  | zero => intro a h; simp [Animation.tickN]
  | succ k ih =>
    intro a h
    show a.tick.tickN k = _
    rw [Animation.tick_noadv a (by push_cast at h; omega)]
    rw [ih _ (show a.frame_counter + 1 + (k : ℤ) ≤ a.rate by push_cast at h; omega)]
    show ({ a with frame_counter := a.frame_counter + 1 + (k : ℤ) } : Animation) = _
    have hk : a.frame_counter + 1 + (k : ℤ) = a.frame_counter + ((k + 1 : ℕ) : ℤ) := by
      push_cast
      ring
    rw [hk]

/-- From any state whose counter is within `rate`, exactly
`rate.toNat + 1` ticks make exactly one index advance (with the source's
wrap at `length - 1`) and return the counter to its starting value. -/
lemma Animation.tickN_cycle (a : Animation) (hc0 : 0 ≤ a.frame_counter)
    (hcr : a.frame_counter ≤ a.rate) :
    a.tickN (a.rate.toNat + 1) =
      { a with
        state_number :=
          if a.state_number + 1 ≥ a.states.length - 1 then 0 else a.state_number + 1 } := by
  have hsplit : a.rate.toNat + 1 =
      (a.rate - a.frame_counter).toNat + (1 + a.frame_counter.toNat) := by omega
  rw [hsplit, Animation.tickN_add]
  have h1 : a.tickN (a.rate - a.frame_counter).toNat = { a with frame_counter := a.rate } := by
    rw [Animation.tickN_noadv _ a (by omega)]
    have he : a.frame_counter + (((a.rate - a.frame_counter).toNat : ℕ) : ℤ) = a.rate := by
      omega
    rw [he]
  rw [h1, Animation.tickN_add 1 a.frame_counter.toNat]
  have h2 : ({ a with frame_counter := a.rate } : Animation).tickN 1 =
      { a with
        state_number :=
          if a.state_number + 1 ≥ a.states.length - 1 then 0 else a.state_number + 1,
        frame_counter := 0 } := by
    show ({ a with frame_counter := a.rate } : Animation).tick.tickN 0 = _
    rw [Animation.tick_adv { a with frame_counter := a.rate }
      (show a.rate + 1 > a.rate by omega)]
    rfl
  rw [h2]
  rw [Animation.tickN_noadv _ _ (show (0 : ℤ) + (a.frame_counter.toNat : ℤ) ≤ a.rate by omega)]
  have hc : (0 : ℤ) + ((a.frame_counter.toNat : ℕ) : ℤ) = a.frame_counter := by omega
  rw [hc]

/-- `stopTicks` vanishes exactly on the loop's exit condition. -/
lemma Animation.stopTicks_of_zero (a : Animation) (h : a.state_number = 0) :
    a.stopTicks = 0 := by
  unfold Animation.stopTicks
  rw [if_pos h]

/-- A second `stop` right after a first one changes nothing. -/
lemma Animation.stop_stop (a : Animation) : a.stop.stop = a.stop := by
  show a.stop.stopFuel a.stop.stopTicks = a.stop
  rw [Animation.stopTicks_of_zero _ a.stop_state_number]
  rfl

/-- A reachable animation state used as concrete input below: three
frames, rate `1`, obtained from the freshly-constructed state by ticks. -/
def c1start : Animation :=
  { states := [⟨0, 0, 0, 0⟩, ⟨0, 0, 0, 0⟩, ⟨0, 0, 0, 0⟩],
    frame_counter := 0, rate := 1, state_number := 0 }

/-- C1 counterexample: from the reachable state `c1start.tick`
(3 frames, rate `R = 1`, `current_index = 0`, `frame_counter = 1`),
calling `tick()` exactly `R + 1 = 2` times does advance `current_index`
by exactly 1, but leaves `frame_counter = 1`, not `0` as the claim
states for "any state". -/
theorem c1_counter_not_reset :
    (c1start.tick.tickN (c1start.tick.rate.toNat + 1)).frame_counter = 1 ∧
    (c1start.tick.tickN (c1start.tick.rate.toNat + 1)).frame_counter ≠ 0 ∧
    (c1start.tick.tickN (c1start.tick.rate.toNat + 1)).state_number =
      c1start.tick.state_number + 1 := by
  decide

/-- C1 (amended): for an `Animation` with `N ≥ 2` frames, rate `R ≥ 0`
and a reachable state (`current_index ≤ N - 2`,
`0 ≤ frame_counter ≤ R`), calling `tick()` exactly `R + 1` times
advances `current_index` by exactly 1 under the wrap rule (indices
advance `0, 1, ..., N-2` and then wrap to `0`; index `N-1` is never
entered) and leaves `frame_counter` equal to its value before the
calls (in particular `0` when starting from a freshly-advanced state). -/
theorem c1_cycle_amended (a : Animation) (hN : 2 ≤ a.states.length)
    (hi : a.state_number + 1 ≤ a.states.length - 1)
    (hc0 : 0 ≤ a.frame_counter) (hcr : a.frame_counter ≤ a.rate) :
    (a.tickN (a.rate.toNat + 1)).state_number =
      (if a.state_number + 1 = a.states.length - 1 then 0 else a.state_number + 1) ∧
    (a.tickN (a.rate.toNat + 1)).state_number ≠ a.states.length - 1 ∧
    (a.tickN (a.rate.toNat + 1)).frame_counter = a.frame_counter := by
  rw [Animation.tickN_cycle a hc0 hcr]
  refine ⟨?_, ?_, rfl⟩
  · show (if a.state_number + 1 ≥ a.states.length - 1 then 0 else a.state_number + 1) = _
    by_cases h : a.state_number + 1 = a.states.length - 1
    · rw [if_pos (by omega), if_pos h]
    · rw [if_neg (by omega), if_neg h]
  · show (if a.state_number + 1 ≥ a.states.length - 1 then 0 else a.state_number + 1) ≠ _
    split <;> omega

/-- C1 witness: Scenario A's animation (3 frames, rate here `1`,
index 0, counter 0): after `R + 1 = 2` ticks, index `1`, counter `0`. -/
theorem c1_cycle_witness :
    (c1start.tickN (c1start.rate.toNat + 1)).state_number = 1 ∧
    (c1start.tickN (c1start.rate.toNat + 1)).frame_counter = 0 := by
  have h := c1_cycle_amended c1start (by decide) (by decide) (by decide) (by decide)
  exact ⟨h.1.trans (by decide), h.2.2.trans (by decide)⟩

/-- A reachable animation state for the `stop` witness: three frames,
rate `2`, index `2`, counter `1`. -/
def c4anim : Animation :=
  { states := [⟨0, 0, 0, 0⟩, ⟨0, 0, 0, 0⟩, ⟨0, 0, 0, 0⟩],
    frame_counter := 1, rate := 2, state_number := 2 }

/-- C4: for every animation with non-empty frames and a reachable state,
`stop()` terminates (any fuel at least `stopTicks` gives the same
result, i.e. the source's while loop exits) with `current_index = 0`,
and an immediately repeated `stop()` leaves the state unchanged. -/
theorem c4_stop_idempotent (a : Animation) (hne : a.states ≠ [])
    (hi : a.state_number < a.states.length) (hc0 : 0 ≤ a.frame_counter)
    (hcr : a.frame_counter ≤ a.rate) (hr : 0 ≤ a.rate) :
    a.stop.state_number = 0 ∧ a.stop.stop = a.stop ∧
      ∀ n, a.stopTicks ≤ n → a.stopFuel n = a.stop :=
  ⟨a.stop_state_number, a.stop_stop,
    fun n hn => Animation.stopFuel_congr n a.stopTicks a hn le_rfl⟩

/-- C4 witness: `stop` on the concrete reachable state `c4anim` ends at
index 0 and a second `stop` is a no-op. -/
theorem c4_stop_witness : c4anim.stop.state_number = 0 ∧ c4anim.stop.stop = c4anim.stop := by
  have h := c4_stop_idempotent c4anim (by decide) (by decide) (by decide) (by decide) (by decide)
  exact ⟨h.1, h.2.1⟩

/-- A reachable two-frame animation at index 1, used as concrete input. -/
def c8anim : Animation :=
  { states := [⟨0, 0, 0, 0⟩, ⟨0, 0, 0, 0⟩], frame_counter := 0, rate := 0, state_number := 1 }

/-- C8: for every animation with non-empty frames and an in-range index,
`tick` and `stop` keep the index in range (and a frame advance leaves it
at most `frames.len() - 2` when there are at least two frames), so the
indexing in `get_current_state` is in bounds — before, after a `tick`
and after a `stop` — and its out-of-range (panic) branch is unreachable. -/
theorem c8_index_safety (a : Animation) (hne : a.states ≠ [])
    (hi : a.state_number < a.states.length) :
    a.tick.state_number < a.states.length ∧
    a.stop.state_number < a.states.length ∧
    a.get_current_state.isSome = true ∧
    a.tick.get_current_state.isSome = true ∧
    a.stop.get_current_state.isSome = true ∧
    (2 ≤ a.states.length → a.frame_counter + 1 > a.rate →
      a.tick.state_number ≤ a.states.length - 2) := by
  have hL : 0 < a.states.length := List.length_pos.mpr hne
  have htick : a.tick.state_number < a.states.length := a.tick_state_number_lt hL hi
  have hstop : a.stop.state_number < a.states.length := by
    rw [a.stop_state_number]
    exact hL
  refine ⟨htick, hstop, ?_, ?_, ?_, ?_⟩
  · unfold Animation.get_current_state
    rw [List.getElem?_eq_getElem hi]
    rfl
  · unfold Animation.get_current_state
    have h2 : a.tick.state_number < a.tick.states.length := by
      rw [Animation.tick_states]
      exact htick
    rw [List.getElem?_eq_getElem h2]
    rfl
  · unfold Animation.get_current_state
    have h2 : a.stop.state_number < a.stop.states.length := by
      rw [Animation.stop_states, a.stop_state_number]
      exact hL
    rw [List.getElem?_eq_getElem h2]
    rfl
  · intro h2 hadv
    rw [Animation.tick_adv a hadv]
    show (if a.state_number + 1 ≥ a.states.length - 1 then 0 else a.state_number + 1) ≤
      a.states.length - 2
    split <;> omega

/-- C8 witness: the concrete animation `c8anim` keeps its index in
range across `tick` and its current frame well-defined. -/
theorem c8_index_safety_witness :
    c8anim.tick.state_number < c8anim.states.length ∧
    c8anim.get_current_state.isSome = true := by
  have h := c8_index_safety c8anim (by decide) (by decide)
  exact ⟨h.1, h.2.2.1⟩

/-! Helper lemmas about the actor operations. -/

/-- Closed form of `walk`. -/
lemma Char_action.walk_eq (c : Char_action) :
    c.walk =
      { c with
        screen_region :=
          { c.screen_region with
            x := c.screen_region.x + (if c.facing_right then c.speed else -c.speed) } } := by
  cases hb : c.facing_right
  · simp [Char_action.walk, hb, sub_eq_add_neg]
  · simp [Char_action.walk, hb]

/-- Closed form of `n` iterated `walk` calls. -/
lemma Char_action.walkN_eq : ∀ (n : ℕ) (c : Char_action),
    c.walkN n =
      { c with
        screen_region :=
          { c.screen_region with
            x := c.screen_region.x +
              (n : ℚ) * (if c.facing_right then c.speed else -c.speed) } } := by
  intro n
  induction n with
  | zero =>
    intro c
    show c = _
    have h0 : c.screen_region.x +
        ((0 : ℕ) : ℚ) * (if c.facing_right then c.speed else -c.speed) =
        c.screen_region.x := by push_cast; ring
    rw [h0]
  | succ n ih =>
    intro c
    show c.walk.walkN n = _
    rw [Char_action.walk_eq c, ih]
    show ({ c with
      screen_region :=
        { c.screen_region with
          x := c.screen_region.x + (if c.facing_right then c.speed else -c.speed) +
            (n : ℚ) * (if c.facing_right then c.speed else -c.speed) } } : Char_action) = _
    have harith : c.screen_region.x + (if c.facing_right then c.speed else -c.speed) +
        (n : ℚ) * (if c.facing_right then c.speed else -c.speed) =
        c.screen_region.x +
          ((n + 1 : ℕ) : ℚ) * (if c.facing_right then c.speed else -c.speed) := by
      push_cast
      ring
    rw [harith]

/-- C10: `walk` adds exactly `speed` to `x` when facing right and
subtracts exactly `speed` otherwise, with no clamping (iterating `walk`
`n` times moves `x` by exactly `n·speed`, unboundedly), and changes no
other field: `y`, width, height, `speed`, `facing_right`, sprite slot
and animation are untouched. -/
theorem c10_walk_effect (c : Char_action) :
    c.walk =
      { c with
        screen_region :=
          { c.screen_region with
            x := c.screen_region.x + (if c.facing_right then c.speed else -c.speed) } } ∧
    ∀ n : ℕ, c.walkN n =
      { c with
        screen_region :=
          { c.screen_region with
            x := c.screen_region.x +
              (n : ℚ) * (if c.facing_right then c.speed else -c.speed) } } :=
  ⟨Char_action.walk_eq c, fun n => Char_action.walkN_eq n c⟩

/-- The mirrored branch of `face_left`. -/
lemma Char_action.face_left_neg (c : Char_action) (h : c.screen_region.w < 0) :
    c.face_left =
      { c with
        facing_right := false,
        screen_region :=
          { c.screen_region with
            w := c.screen_region.w * (-1), x := c.screen_region.x - 60 } } := by
  rw [Char_action.face_left, if_pos h]

/-- The unmirrored branch of `face_left`. -/
lemma Char_action.face_left_nonneg (c : Char_action) (h : ¬ c.screen_region.w < 0) :
    c.face_left = { c with facing_right := false } := by
  rw [Char_action.face_left, if_neg h]

/-- The unmirrored branch of `face_right`. -/
lemma Char_action.face_right_pos (c : Char_action) (h : c.screen_region.w > 0) :
    c.face_right =
      { c with
        facing_right := true,
        screen_region :=
          { c.screen_region with
            w := c.screen_region.w * (-1), x := c.screen_region.x + 60 } } := by
  rw [Char_action.face_right, if_pos h]

/-- The mirrored branch of `face_right`. -/
lemma Char_action.face_right_nonpos (c : Char_action) (h : ¬ c.screen_region.w > 0) :
    c.face_right = { c with facing_right := true } := by
  rw [Char_action.face_right, if_neg h]

/-- A concrete actor with positive (unmirrored) width `64`. -/
def c3actor : Char_action :=
  { screen_region := ⟨100, 32, 64, 100⟩, animation := c1start, speed := 2,
    facing_right := false, sprites_index := 0 }

/-- C3 counterexample: on an actor whose width is `64 > 0`, `face_left`
leaves the rectangle completely unchanged — it does not negate the
width nor shift `x` — refuting the claim that the flip happens exactly
when `screen_rect.width > 0` (the source guards `face_left` by
`width < 0`). -/
theorem c3_guard_counterexample :
    c3actor.screen_region.w > 0 ∧
    c3actor.face_left.screen_region.w = c3actor.screen_region.w ∧
    c3actor.face_left.screen_region.x = c3actor.screen_region.x := by
  have h : c3actor.face_left = { c3actor with facing_right := false } :=
    Char_action.face_left_nonneg _ (by norm_num [c3actor])
  exact ⟨by norm_num [c3actor], by rw [h], by rw [h]⟩

/-- C3 (amended): `face_left()` sets `facing_right` to false, and
exactly when `screen_rect.width < 0` at the moment of the call it
negates the width and decreases `x` by the fixed flip offset `60`,
leaving the rectangle unchanged otherwise; symmetrically `face_right()`
sets `facing_right` to true and negates the width and increases `x` by
`60` exactly when `screen_rect.width > 0`. -/
theorem c3_face_guards (c : Char_action) :
    (c.face_left.facing_right = false ∧ c.face_right.facing_right = true) ∧
    (c.screen_region.w < 0 →
      c.face_left =
        { c with
          facing_right := false,
          screen_region :=
            { c.screen_region with
              w := c.screen_region.w * (-1), x := c.screen_region.x - 60 } }) ∧
    (¬ c.screen_region.w < 0 → c.face_left = { c with facing_right := false }) ∧
    (c.screen_region.w > 0 →
      c.face_right =
        { c with
          facing_right := true,
          screen_region :=
            { c.screen_region with
              w := c.screen_region.w * (-1), x := c.screen_region.x + 60 } }) ∧
    (¬ c.screen_region.w > 0 → c.face_right = { c with facing_right := true }) := by
  refine ⟨⟨?_, ?_⟩, Char_action.face_left_neg c, Char_action.face_left_nonneg c,
    Char_action.face_right_pos c, Char_action.face_right_nonpos c⟩
  · rw [Char_action.face_left]
    split <;> rfl
  · rw [Char_action.face_right]
    split <;> rfl

/-- Scenario B's actor: facing right with mirrored width `-64`. -/
def c3mirrored : Char_action :=
  { screen_region := ⟨100, 32, -64, 100⟩, animation := c1start, speed := 2,
    facing_right := true, sprites_index := 0 }

/-- C3 witness (Scenario B): `face_left` on width `-64` produces width
`64`, shifts `x` from `100` to `40` and clears `facing_right`. -/
theorem c3_face_guards_witness :
    c3mirrored.face_left.screen_region.w = 64 ∧
    c3mirrored.face_left.screen_region.x = 40 ∧
    c3mirrored.face_left.facing_right = false := by
  have h := c3_face_guards c3mirrored
  have h2 := h.2.1 (by norm_num [c3mirrored])
  refine ⟨?_, ?_, h.1.1⟩ <;> rw [h2] <;> norm_num [c3mirrored]

/-- C5: both facing toggles are idempotent: a second `face_left`
(resp. `face_right`) right after a first one changes nothing, the
rectangle included. -/
theorem c5_flip_idempotent (c : Char_action) :
    c.face_left.face_left = c.face_left ∧ c.face_right.face_right = c.face_right := by
  constructor
  · by_cases h : c.screen_region.w < 0
    · have h1 := Char_action.face_left_neg c h
      have h2 : ¬ c.face_left.screen_region.w < 0 := by
        rw [h1]
        show ¬ c.screen_region.w * (-1) < 0
        rw [mul_neg_one]
        exact not_lt.mpr (by linarith)
      rw [Char_action.face_left_nonneg _ h2, h1]
    · have h1 := Char_action.face_left_nonneg c h
      have h2 : ¬ c.face_left.screen_region.w < 0 := by
        rw [h1]
        exact h
      rw [Char_action.face_left_nonneg _ h2, h1]
  · by_cases h : c.screen_region.w > 0
    · have h1 := Char_action.face_right_pos c h
      have h2 : ¬ c.face_right.screen_region.w > 0 := by
        rw [h1]
        show ¬ c.screen_region.w * (-1) > 0
        rw [mul_neg_one]
        exact not_lt.mpr (by linarith)
      rw [Char_action.face_right_nonpos _ h2, h1]
    · have h1 := Char_action.face_right_nonpos c h
      have h2 : ¬ c.face_right.screen_region.w > 0 := by
        rw [h1]
        exact h
      rw [Char_action.face_right_nonpos _ h2, h1]

/-- C6: whenever `move_down` drives `y - speed ≤ 0` it performs exactly
the respawn assignment of `reset_y` (so the post-state has `y = 768`
and `x = r ∈ [0, 1024]` for every possible draw `r ≤ 1024`), it merely
subtracts `speed` from `y` otherwise, and `reset_y` itself always lands
on `y = 768` with `x` in `[0, 1024]`. -/
theorem c6_respawn_bounds (c : Char_action) (r : ℕ) (hr : r ≤ 1024) :
    (c.screen_region.y - c.speed ≤ 0 →
      c.move_down r = c.reset_y r ∧
      (c.move_down r).screen_region.y = 768 ∧
      0 ≤ (c.move_down r).screen_region.x ∧ (c.move_down r).screen_region.x ≤ 1024) ∧
    (¬ c.screen_region.y - c.speed ≤ 0 →
      c.move_down r =
        { c with
          screen_region := { c.screen_region with y := c.screen_region.y - c.speed } }) ∧
    ((c.reset_y r).screen_region.y = 768 ∧
      0 ≤ (c.reset_y r).screen_region.x ∧ (c.reset_y r).screen_region.x ≤ 1024) := by
  have hx0 : (0 : ℚ) ≤ (r : ℚ) := by positivity
  have hx1 : (r : ℚ) ≤ 1024 := by exact_mod_cast hr
  refine ⟨?_, ?_, rfl, hx0, hx1⟩
  · intro h
    have hm : c.move_down r = c.reset_y r := by
      rw [Char_action.move_down, if_pos h]
      rfl
    rw [hm]
    exact ⟨rfl, rfl, hx0, hx1⟩
  · intro h
    rw [Char_action.move_down, if_neg h]

/-- Scenario C's falling actor: `y = 1.5`, `speed = 2`. -/
def c6actor : Char_action :=
  { screen_region := ⟨20, 3 / 2, 55, 55⟩, animation := c1start, speed := 2,
    facing_right := true, sprites_index := 1 }

/-- C6 witness (Scenario C): from `y = 1.5` with `speed = 2`,
`move_down` triggers the respawn: `y = 768`, `x` is the draw `500`, and
the result coincides with `reset_y`. -/
theorem c6_respawn_witness :
    (c6actor.move_down 500).screen_region.y = 768 ∧
    (c6actor.move_down 500).screen_region.x = 500 ∧
    c6actor.move_down 500 = c6actor.reset_y 500 := by
  have h := (c6_respawn_bounds c6actor 500 (by norm_num)).1 (by norm_num [c6actor])
  refine ⟨h.2.1, ?_, h.1⟩
  rw [h.1]
  norm_num [Char_action.reset_y]

/-- `face_left` establishes the facing/width-sign correspondence on any
actor with nonzero width. -/
lemma widthInv_face_left (c : Char_action) (hw : c.screen_region.w ≠ 0) :
    widthInv c.face_left := by
  by_cases h : c.screen_region.w < 0
  · rw [Char_action.face_left_neg c h]
    refine ⟨?_, ?_⟩
    · show (false = true ↔ c.screen_region.w * (-1) < 0)
      exact iff_of_false (by simp) (by rw [mul_neg_one]; linarith)
    · show c.screen_region.w * (-1) ≠ 0
      rw [mul_neg_one]
      exact neg_ne_zero.mpr hw
  · rw [Char_action.face_left_nonneg c h]
    refine ⟨?_, hw⟩
    show (false = true ↔ c.screen_region.w < 0)
    exact iff_of_false (by simp) h

/-- `face_right` establishes the facing/width-sign correspondence on any
actor with nonzero width. -/
lemma widthInv_face_right (c : Char_action) (hw : c.screen_region.w ≠ 0) :
    widthInv c.face_right := by
  by_cases h : c.screen_region.w > 0
  · rw [Char_action.face_right_pos c h]
    refine ⟨?_, ?_⟩
    · show (true = true ↔ c.screen_region.w * (-1) < 0)
      exact iff_of_true rfl (by rw [mul_neg_one]; linarith)
    · show c.screen_region.w * (-1) ≠ 0
      rw [mul_neg_one]
      exact neg_ne_zero.mpr hw
  · rw [Char_action.face_right_nonpos c h]
    refine ⟨?_, hw⟩
    show (true = true ↔ c.screen_region.w < 0)
    exact iff_of_true rfl (lt_of_le_of_ne (not_lt.mp h) hw)

/-- Every actor operation preserves the facing/width-sign
correspondence. -/
lemma widthInv_applyOp (op : ActorOp) (c : Char_action) (h : widthInv c) :
    widthInv (applyOp op c) := by
  obtain ⟨hiff, hw⟩ := h
  cases op with
  | opWalk =>
    show widthInv c.walk
    rw [Char_action.walk_eq c]
    exact ⟨hiff, hw⟩
  | opFaceLeft => exact widthInv_face_left c hw
  | opFaceRight => exact widthInv_face_right c hw
  | opMoveDown r =>
    show widthInv (c.move_down r)
    by_cases hy : c.screen_region.y - c.speed ≤ 0
    · rw [Char_action.move_down, if_pos hy]
      exact ⟨hiff, hw⟩
    · rw [Char_action.move_down, if_neg hy]
      exact ⟨hiff, hw⟩
  | opResetY r => exact ⟨hiff, hw⟩

/-- The facing/width-sign correspondence is preserved by any sequence
of actor operations. -/
lemma widthInv_applyOps : ∀ (ops : List ActorOp) (c : Char_action),
    widthInv c → widthInv (applyOps ops c) := by
  intro ops
  induction ops with
  | nil => intro c h; exact h
  | cons op ops ih => intro c h; exact ih _ (widthInv_applyOp op c h)

/-- C9: on any actor with nonzero width, each facing toggle establishes
the fixed facing/width-sign correspondence (`facing_right` exactly when
the stored width is negative, width nonzero), and every subsequent
sequence of `walk`, `move_down`, `reset_y`, `face_left`, `face_right`
calls preserves it. -/
theorem c9_facing_width_sign (c : Char_action) (hw : c.screen_region.w ≠ 0)
    (ops : List ActorOp) :
    widthInv c.face_left ∧ widthInv c.face_right ∧
    widthInv (applyOps ops c.face_left) ∧ widthInv (applyOps ops c.face_right) :=
  ⟨widthInv_face_left c hw, widthInv_face_right c hw,
    widthInv_applyOps ops _ (widthInv_face_left c hw),
    widthInv_applyOps ops _ (widthInv_face_right c hw)⟩

/-- C9 witness: the correspondence holds on the concrete actor
`c3actor` (width `64`) after `face_left` followed by a walk, a descent
and a `face_right`. -/
theorem c9_facing_width_sign_witness :
    widthInv (applyOps [ActorOp.opWalk, ActorOp.opMoveDown 5, ActorOp.opFaceRight]
      c3actor.face_left) ∧
    widthInv c3actor.face_right := by
  have h := c9_facing_width_sign c3actor (by norm_num [c3actor])
    [ActorOp.opWalk, ActorOp.opMoveDown 5, ActorOp.opFaceRight]
  exact ⟨h.2.2.1, h.2.1⟩

/-- The movement phase never touches the game state. -/
lemma movePhase_gs (inp : TickInput) (w : World) : (movePhase inp w).gs = w.gs := rfl

/-- Scoring on a fresh overlap (flag still clear): score is incremented
and the flag set. -/
lemma collidePhase_gs_fresh (r : ℕ) (w : World) (hc : collides w)
    (hs : w.gs.score_changing = false) :
    (collidePhase r w).gs =
      { chars_typed := w.gs.chars_typed, score := w.gs.score + 1,
        score_changing := true } := by
  rw [collidePhase, if_pos hc]
  show (if !w.gs.score_changing then _ else _) = _
  rw [hs]
  rfl

/-- Scoring on a held overlap (flag already set): the game state is
untouched. -/
lemma collidePhase_gs_held (r : ℕ) (w : World) (hc : collides w)
    (hs : w.gs.score_changing = true) :
    (collidePhase r w).gs = w.gs := by
  rw [collidePhase, if_pos hc]
  show (if !w.gs.score_changing then _ else _) = _
  rw [hs]
  rfl

/-- Without overlap, only the edge flag is cleared. -/
lemma collidePhase_gs_none (r : ℕ) (w : World) (hc : ¬ collides w) :
    (collidePhase r w).gs =
      { chars_typed := w.gs.chars_typed, score := w.gs.score,
        score_changing := false } := by
  rw [collidePhase, if_neg hc]

/-- One tick can only keep or increment the score. -/
lemma score_mono_step (inp : TickInput) (w : World) :
    w.gs.score ≤ (mainStep inp w).gs.score := by
  show w.gs.score ≤ (collidePhase inp.rand_reset (movePhase inp w)).gs.score
  by_cases hc : collides (movePhase inp w)
  · cases hs : (movePhase inp w).gs.score_changing
    · rw [collidePhase_gs_fresh _ _ hc hs]
      show w.gs.score ≤ (movePhase inp w).gs.score + 1
      rw [movePhase_gs]
      omega
    · rw [collidePhase_gs_held _ _ hc hs, movePhase_gs]
  · rw [collidePhase_gs_none _ _ hc]
    show w.gs.score ≤ (movePhase inp w).gs.score
    rw [movePhase_gs]

/-- C7: across any sequence of simulation ticks — every interleaving of
the input branches, the descent and the collision/scoring check is some
sequence of `mainStep`s with suitable inputs — the score never
decreases (it lives in `ℕ`, the model of the non-negative `usize`). -/
theorem c7_score_monotone : ∀ (inps : List TickInput) (w : World),
    w.gs.score ≤ (runSteps inps w).gs.score := by
  intro inps
  induction inps with
  | nil => intro w; exact le_rfl
  | cons inp inps ih =>
    intro w
    exact le_trans (score_mono_step inp w) (ih (mainStep inp w))

/-- C2: if the normalized squirrel box overlaps the acorn box on three
consecutive ticks, with `score_changing` false entering the first of
them, then the score increases by exactly 1 — on the first overlapping
tick — and not 3 (the game state is completely unchanged on the second
and third tick), `score_changing` is set on that first tick, and on the
first subsequent tick without overlap `score_changing` is cleared with
the score unchanged. -/
theorem c2_edge_triggered_scoring (w0 : World) (inp1 inp2 inp3 inp4 : TickInput)
    (h0 : w0.gs.score_changing = false)
    (h1 : collides (movePhase inp1 w0))
    (h2 : collides (movePhase inp2 (mainStep inp1 w0)))
    (h3 : collides (movePhase inp3 (mainStep inp2 (mainStep inp1 w0))))
    (h4 : ¬ collides (movePhase inp4 (mainStep inp3 (mainStep inp2 (mainStep inp1 w0))))) :
    (mainStep inp1 w0).gs.score = w0.gs.score + 1 ∧
    (mainStep inp1 w0).gs.score_changing = true ∧
    (mainStep inp2 (mainStep inp1 w0)).gs = (mainStep inp1 w0).gs ∧
    (mainStep inp3 (mainStep inp2 (mainStep inp1 w0))).gs =
      (mainStep inp2 (mainStep inp1 w0)).gs ∧
    (mainStep inp4 (mainStep inp3 (mainStep inp2 (mainStep inp1 w0)))).gs.score =
      (mainStep inp3 (mainStep inp2 (mainStep inp1 w0))).gs.score ∧
    (mainStep inp4 (mainStep inp3 (mainStep inp2 (mainStep inp1 w0)))).gs.score_changing =
      false := by
  have e1 : (mainStep inp1 w0).gs =
      { chars_typed := w0.gs.chars_typed, score := w0.gs.score + 1,
        score_changing := true } := by
    show (collidePhase inp1.rand_reset (movePhase inp1 w0)).gs = _
    rw [collidePhase_gs_fresh _ _ h1 (by rw [movePhase_gs]; exact h0), movePhase_gs]
  have e2 : (mainStep inp2 (mainStep inp1 w0)).gs = (mainStep inp1 w0).gs := by
    show (collidePhase inp2.rand_reset (movePhase inp2 (mainStep inp1 w0))).gs = _
    rw [collidePhase_gs_held _ _ h2 (by rw [movePhase_gs, e1]), movePhase_gs]
  have e3 : (mainStep inp3 (mainStep inp2 (mainStep inp1 w0))).gs =
      (mainStep inp2 (mainStep inp1 w0)).gs := by
    show (collidePhase inp3.rand_reset
      (movePhase inp3 (mainStep inp2 (mainStep inp1 w0)))).gs = _
    rw [collidePhase_gs_held _ _ h3 (by rw [movePhase_gs, e2, e1]), movePhase_gs]
  have e4 : (mainStep inp4 (mainStep inp3 (mainStep inp2 (mainStep inp1 w0)))).gs =
      { chars_typed := (mainStep inp3 (mainStep inp2 (mainStep inp1 w0))).gs.chars_typed,
        score := (mainStep inp3 (mainStep inp2 (mainStep inp1 w0))).gs.score,
        score_changing := false } := by
    show (collidePhase inp4.rand_reset
      (movePhase inp4 (mainStep inp3 (mainStep inp2 (mainStep inp1 w0))))).gs = _
    rw [collidePhase_gs_none _ _ h4, movePhase_gs]
  exact ⟨by rw [e1], by rw [e1], e2, e3, by rw [e4], by rw [e4]⟩

/-- Concrete squirrel sitting just under the acorn respawn row. -/
def c2squirrel : Char_action :=
  { screen_region := ⟨100, 760, 100, 100⟩, animation := c1start, speed := 2,
    facing_right := false, sprites_index := 0 }

/-- Concrete falling acorn one step above the squirrel. -/
def c2acorn : Char_action :=
  { screen_region := ⟨120, 762, 55, 55⟩, animation := c1start, speed := 2,
    facing_right := true, sprites_index := 1 }

/-- Concrete initial world for the scoring scenario. -/
def c2w0 : World :=
  { squirrel := c2squirrel, acorn := c2acorn,
    gs := { chars_typed := 0, score := 0, score_changing := false }, nut_count := 0 }

/-- Tick input with no keys held or released and reset draw `rr`. -/
def c2inp (rr : ℕ) : TickInput :=
  { left_down := false, right_down := false, left_up := false, right_up := false,
    rand_move := 0, rand_reset := rr }

/-- World after the first movement phase. -/
def c2m1 : World :=
  { squirrel := c2squirrel,
    acorn := ⟨⟨120, 760, 55, 55⟩, c1start, 2, true, 1⟩,
    gs := { chars_typed := 0, score := 0, score_changing := false }, nut_count := 0 }

/-- World after the first full tick (scored, acorn recycled to `x=120`). -/
def c2w1 : World :=
  { squirrel := c2squirrel,
    acorn := ⟨⟨120, 768, 55, 55⟩, c1start, 21 / 10, true, 1⟩,
    gs := { chars_typed := 0, score := 1, score_changing := true }, nut_count := 1 }

/-- World after the second movement phase. -/
def c2m2 : World :=
  { squirrel := c2squirrel,
    acorn := ⟨⟨120, 7659 / 10, 55, 55⟩, c1start, 21 / 10, true, 1⟩,
    gs := { chars_typed := 0, score := 1, score_changing := true }, nut_count := 1 }

/-- World after the second full tick (still overlapping: no new score). -/
def c2w2 : World :=
  { squirrel := c2squirrel,
    acorn := ⟨⟨120, 768, 55, 55⟩, c1start, 22 / 10, true, 1⟩,
    gs := { chars_typed := 0, score := 1, score_changing := true }, nut_count := 2 }

/-- World after the third movement phase. -/
def c2m3 : World :=
  { squirrel := c2squirrel,
    acorn := ⟨⟨120, 7658 / 10, 55, 55⟩, c1start, 22 / 10, true, 1⟩,
    gs := { chars_typed := 0, score := 1, score_changing := true }, nut_count := 2 }

/-- World after the third full tick (acorn recycled far away, `x=500`). -/
def c2w3 : World :=
  { squirrel := c2squirrel,
    acorn := ⟨⟨500, 768, 55, 55⟩, c1start, 23 / 10, true, 1⟩,
    gs := { chars_typed := 0, score := 1, score_changing := true }, nut_count := 3 }

/-- World after the fourth movement phase (no overlap any more). -/
def c2m4 : World :=
  { squirrel := c2squirrel,
    acorn := ⟨⟨500, 7657 / 10, 55, 55⟩, c1start, 23 / 10, true, 1⟩,
    gs := { chars_typed := 0, score := 1, score_changing := true }, nut_count := 3 }

lemma c2_move1 : movePhase (c2inp 120) c2w0 = c2m1 := by
  norm_num [movePhase, Char_action.move_down, c2inp, c2w0, c2acorn, c2m1]

lemma c2_hit1 : collides c2m1 := by
  norm_num [collides, c2m1, c2squirrel]

lemma c2_step1 : mainStep (c2inp 120) c2w0 = c2w1 := by
  show collidePhase (c2inp 120).rand_reset (movePhase (c2inp 120) c2w0) = c2w1
  rw [c2_move1, collidePhase, if_pos c2_hit1]
  norm_num [c2m1, c2w1, c2inp, Char_action.reset_y]

lemma c2_move2 : movePhase (c2inp 120) c2w1 = c2m2 := by
  norm_num [movePhase, Char_action.move_down, c2inp, c2w1, c2m2]

lemma c2_hit2 : collides c2m2 := by
  norm_num [collides, c2m2, c2squirrel]

lemma c2_step2 : mainStep (c2inp 120) c2w1 = c2w2 := by
  show collidePhase (c2inp 120).rand_reset (movePhase (c2inp 120) c2w1) = c2w2
  rw [c2_move2, collidePhase, if_pos c2_hit2]
  norm_num [c2m2, c2w2, c2inp, Char_action.reset_y]

lemma c2_move3 : movePhase (c2inp 500) c2w2 = c2m3 := by
  norm_num [movePhase, Char_action.move_down, c2inp, c2w2, c2m3]

lemma c2_hit3 : collides c2m3 := by
  norm_num [collides, c2m3, c2squirrel]

lemma c2_step3 : mainStep (c2inp 500) c2w2 = c2w3 := by
  show collidePhase (c2inp 500).rand_reset (movePhase (c2inp 500) c2w2) = c2w3
  rw [c2_move3, collidePhase, if_pos c2_hit3]
  norm_num [c2m3, c2w3, c2inp, Char_action.reset_y]

lemma c2_move4 : movePhase (c2inp 0) c2w3 = c2m4 := by
  norm_num [movePhase, Char_action.move_down, c2inp, c2w3, c2m4]

lemma c2_miss4 : ¬ collides c2m4 := by
  norm_num [collides, c2m4, c2squirrel]

/-- C2 witness: in the concrete four-tick run from `c2w0` the overlap
holds on ticks 1-3 and fails on tick 4; the score rises from 0 to 1 on
tick 1 only, and the edge flag is cleared on tick 4. -/
theorem c2_edge_triggered_witness :
    (mainStep (c2inp 120) c2w0).gs.score = c2w0.gs.score + 1 ∧
    (mainStep (c2inp 120) (mainStep (c2inp 120) c2w0)).gs =
      (mainStep (c2inp 120) c2w0).gs ∧
    (mainStep (c2inp 0) (mainStep (c2inp 500)
      (mainStep (c2inp 120) (mainStep (c2inp 120) c2w0)))).gs.score_changing = false := by
  have h := c2_edge_triggered_scoring c2w0 (c2inp 120) (c2inp 120) (c2inp 500) (c2inp 0)
    rfl
    (by rw [c2_move1]; exact c2_hit1)
    (by rw [c2_step1, c2_move2]; exact c2_hit2)
    (by rw [c2_step1, c2_step2, c2_move3]; exact c2_hit3)
    (by rw [c2_step1, c2_step2, c2_step3, c2_move4]; exact c2_miss4)
  exact ⟨h.1, h.2.2.1, h.2.2.2.2.2⟩
